import Mathlib

/-!
Shallow embedding of the Neo_Translate backend
(`backend/main.py`): a FastAPI service persisting doctor/patient
messages, delegating translation/transcription/summarization to an
external AI provider, and reporting history and summaries.

External provider calls are modelled by an environment `GatewayEnv`
supplying the provider's outcome (`Except String String`: `.error e`
for a raised exception with message `e`, `.ok s` for a returned
payload `s`).  The SQLite store is modelled as a list of messages in
insertion order; timestamps come from the environment clock.
-/

namespace NeoTranslate

/-- Python whitespace characters recognised by `str.strip()` (ASCII set). -/
def isPySpace (c : Char) : Bool :=
  c = ' ' || c = '\t' || c = '\n' || c = '\r' || c = '\x0b' || c = '\x0c'

/-- Drop leading characters satisfying `p` (left part of Python `strip`). -/
def trimLeft (p : Char → Bool) (l : List Char) : List Char :=
  l.dropWhile p

/-- Drop trailing characters satisfying `p` (right part of Python `strip`). -/
def trimRight (p : Char → Bool) (l : List Char) : List Char :=
  (l.reverse.dropWhile p).reverse

/-- Python `str.strip(chars)`: drop leading and trailing characters satisfying `p`. -/
def trimBoth (p : Char → Bool) (l : List Char) : List Char :=
  trimRight p (trimLeft p l)

/-- Python `str.strip()` on a string: surrounding whitespace removed. -/
def pyStrip (s : String) : String :=
  ⟨trimBoth isPySpace s.data⟩

/-- Python `str.strip('"')` on a string: surrounding double quotes removed. -/
def stripQuotes (s : String) : String :=
  ⟨trimBoth (fun c => c = '"') s.data⟩

/-- Python `str.upper()` (ASCII model, per character). -/
def pyUpper (s : String) : String :=
  ⟨s.data.map Char.toUpper⟩

/-- Python `s.split(sep)` for a one-character separator `sep`:
always returns a non-empty list of (possibly empty) chunks. -/
def splitOnChar (sep : Char) : List Char → List (List Char)
  | [] => [[]]
  | c :: rest =>
    match splitOnChar sep rest with
    | [] => [[]]
    | h :: t => if c = sep then [] :: h :: t else (c :: h) :: t

/-- `file.filename.split(".")[-1]`: the chunk after the last dot
(the whole name when there is no dot). -/
def fileExtension (fn : String) : String :=
  ⟨(splitOnChar '.' fn.data).getLastD []⟩

/-- A row of the `messages` table (`ChatMessage` in `main.py`).
`timestamp` is modelled as a natural clock value. -/
structure ChatMessage where
  id : Nat
  role : String
  original_text : String
  translated_text : String
  original_lang : String
  target_lang : String
  original_audio_url : Option String
  timestamp : Nat
  deriving Repr, DecidableEq

/-- The persistence store: rows in insertion order. -/
abbrev Store := List ChatMessage

/-- Outcomes of the external AI provider for each kind of call.
`translateResp` receives the user text and target language of the
translation request; `summarizeResp` receives the summary prompt. -/
structure GatewayEnv where
  translateResp : String → String → Except String String
  transcribeResp : Except String String
  summarizeResp : String → Except String String

/-- `perform_translation(text, target_lang)`: on provider success the
payload is stripped of surrounding whitespace then of surrounding
double quotes; on a provider exception the inline error marker
`[Translation Error] <details>` is returned instead of raising. -/
def perform_translation (env : GatewayEnv) (text target_lang : String) : String :=
  match env.translateResp text target_lang with
  | Except.ok content => stripQuotes (pyStrip content)
  | Except.error e => "[Translation Error] " ++ e

/-- The Whisper transcription step of `chat_audio`: on success the
payload is whitespace-stripped; on a provider exception the inline
marker `[Transcription Error: <details>]` is produced. -/
def transcribe (resp : Except String String) : String :=
  match resp with
  | Except.ok t => pyStrip t
  | Except.error e => "[Transcription Error: " ++ e ++ "]"

/-- Store insert: assigns the next id and the clock timestamp, appends
the row, and returns the refreshed row (`db.add`/`commit`/`refresh`). -/
def insertMessage (st : Store) (role original_text translated_text original_lang
    target_lang : String) (original_audio_url : Option String) (ts : Nat) :
    Store × ChatMessage :=
  let m : ChatMessage :=
    { id := List.length st + 1, role := role, original_text := original_text,
      translated_text := translated_text, original_lang := original_lang,
      target_lang := target_lang, original_audio_url := original_audio_url,
      timestamp := ts }
  (List.append st [m], m)

/-- `POST /chat/text` (`chat_text`): translate the submitted text and
persist a message with `original_lang="Auto"` and no audio URL. -/
def chat_text (st : Store) (role text target_lang : String) (env : GatewayEnv)
    (ts : Nat) : Store × ChatMessage :=
  let translated := perform_translation env text target_lang
  insertMessage st role text translated "Auto" target_lang none ts

/-- Blob filename generated by `chat_audio`:
`f"audio_{uuid.uuid4()}.{file_ext}"` with `file_ext = file.filename.split(".")[-1]`. -/
def blobFilename (uuid fn : String) : String :=
  "audio_" ++ uuid ++ "." ++ fileExtension fn

/-- Audio URL computed by `chat_audio`: `f"/static/audio/{filename}"`. -/
def audioUrl (uuid fn : String) : String :=
  "/static/audio/" ++ blobFilename uuid fn

/-- `POST /chat/audio` (`chat_audio`): store the blob, transcribe,
translate the transcription result (error marker or not), and persist
a message with `original_lang="Audio-Auto"` and the audio URL. -/
def chat_audio (st : Store) (role target_lang fn uuid : String)
    (env : GatewayEnv) (ts : Nat) : Store × ChatMessage :=
  let url := audioUrl uuid fn
  let original_text := transcribe env.transcribeResp
  let translated_text := perform_translation env original_text target_lang
  insertMessage st role original_text translated_text "Audio-Auto" target_lang
    (some url) ts

/-- `GET /history` (`get_history`): all rows ordered by timestamp
(`order_by(ChatMessage.timestamp)`, a stable ascending sort). -/
def get_history (st : Store) : List ChatMessage :=
  List.mergeSort st (fun a b => Nat.ble a.timestamp b.timestamp)

/-- One transcript line of `generate_summary`:
`f"{m.role.upper()}: {m.translated_text} (Original: {m.original_text})\n"`. -/
def transcriptLine (m : ChatMessage) : String :=
  pyUpper m.role ++ ": " ++ m.translated_text ++ " (Original: " ++
    m.original_text ++ ")\n"

/-- The transcript accumulated by `generate_summary` over the rows
returned by `db.query(ChatMessage).all()` (insertion order; the query
has no `order_by`). -/
def transcript (msgs : List ChatMessage) : String :=
  msgs.foldl (fun acc m => acc ++ transcriptLine m) ""

/-- The prompt sent to the summarization model for a given transcript. -/
def summaryPromptOf (t : String) : String :=
  "You are a medical scribe. Summarize the following consultation.\n" ++
  "Format strictly as:\n" ++
  "**PATIENT SYMPTOMS:** ...\n" ++
  "**DIAGNOSIS:** ...\n" ++
  "**MEDICATIONS/PLAN:** ...\n\n" ++
  "TRANSCRIPT:\n" ++ t

/-- The summarization call issued by `generate_summary`: wraps the
transcript in the scribe prompt, returns the provider's summary, or
`Summary failed: <details>` on a provider exception. -/
def summarize (env : GatewayEnv) (t : String) : String :=
  match env.summarizeResp (summaryPromptOf t) with
  | Except.ok s => s
  | Except.error e => "Summary failed: " ++ e

/-- The transcript `generate_summary` passes to the summarization call:
`none` when the store is empty and no call is made. -/
def summarizeInput (st : Store) : Option String :=
  if List.isEmpty st then none
  else some (transcript st)

/-- `GET /summarize` (`generate_summary`): the literal sentence on an
empty store; otherwise the summarization of the transcript built over
the rows in store order. -/
def generate_summary (st : Store) (env : GatewayEnv) : String :=
  if List.isEmpty st then "No conversation logs found."
  else summarize env (transcript st)

/-- The system's mutating operations: only the two ingestion inserts
exist (no update or delete endpoint is defined). -/
inductive Op where
  | text (role txt target_lang : String) (env : GatewayEnv) (ts : Nat)
  | audio (role target_lang fn uuid : String) (env : GatewayEnv) (ts : Nat)

/-- Whether an operation is an audio-variant insertion. -/
def Op.isAudio : Op → Bool
  | Op.text _ _ _ _ _ => false
  | Op.audio _ _ _ _ _ _ => true

/-- Apply one operation to the store. -/
def applyOp (st : Store) (op : Op) : Store :=
  match op with
  | Op.text role txt tl env ts => (chat_text st role txt tl env ts).1
  | Op.audio role tl fn uuid env ts => (chat_audio st role tl fn uuid env ts).1

/-- Run a sequence of operations from a given store. -/
def runFrom (st : Store) (ops : List Op) : Store :=
  ops.foldl applyOp st

/-- Run a sequence of operations from the empty store. -/
def runOps (ops : List Op) : Store :=
  runFrom [] ops

/-! ### Helper lemmas about the strip model -/

theorem head?_dropWhile_not (p : Char → Bool) (l : List Char) (c : Char)
    (h : (l.dropWhile p).head? = some c) : p c = false := by
  induction l with
  | nil => simp [List.dropWhile] at h
  | cons a l ih =>
    rw [List.dropWhile_cons] at h
    by_cases hpa : p a
    · rw [if_pos hpa] at h; exact ih h
    · rw [if_neg hpa] at h
      simp only [List.head?_cons, Option.some.injEq] at h
      subst h
      exact Bool.eq_false_iff.mpr hpa

theorem dropWhile_suffix_eq (p : Char → Bool) (l : List Char) :
    ∃ t, l = t ++ l.dropWhile p := by
  induction l with
  | nil => exact ⟨[], rfl⟩
  | cons a l ih =>
    by_cases hpa : p a
    · obtain ⟨t, ht⟩ := ih
      refine ⟨a :: t, ?_⟩
      rw [List.dropWhile_cons, if_pos hpa, List.cons_append, ← ht]
    · exact ⟨[], by rw [List.dropWhile_cons, if_neg hpa, List.nil_append]⟩

theorem head?_trimRight (p : Char → Bool) (m : List Char) (c : Char)
    (h : (trimRight p m).head? = some c) : m.head? = some c := by
  obtain ⟨t, ht⟩ := dropWhile_suffix_eq p m.reverse
  have hm : m = (m.reverse.dropWhile p).reverse ++ t.reverse := by
    have h2 := congrArg List.reverse ht
    simpa [List.reverse_append] using h2
  rw [trimRight] at h
  cases hd : (m.reverse.dropWhile p).reverse with
  | nil => rw [hd] at h; simp at h
  | cons x xs =>
    rw [hd] at h
    simp only [List.head?_cons, Option.some.injEq] at h
    rw [hm, hd, List.cons_append, List.head?_cons, h]

theorem head?_trimBoth (p : Char → Bool) (l : List Char) (c : Char)
    (h : (trimBoth p l).head? = some c) : p c = false :=
  head?_dropWhile_not p l c (head?_trimRight p (trimLeft p l) c h)

theorem getLast?_trimBoth (p : Char → Bool) (l : List Char) (c : Char)
    (h : (trimBoth p l).getLast? = some c) : p c = false := by
  rw [trimBoth, trimRight, List.getLast?_reverse] at h
  exact head?_dropWhile_not p _ c h

/-! ### Claim theorems -/

/-- The property claimed for the translate output: the string neither
starts nor ends with a double-quote character or whitespace. -/
def noQuoteOrSpaceAtEnds (s : String) : Bool :=
  (match s.data.head? with
   | none => true
   | some c => !(c = '"' || isPySpace c)) &&
  (match s.data.getLast? with
   | none => true
   | some c => !(c = '"' || isPySpace c))

/-- A provider whose translation payload is a quoted string with a
trailing space inside the quotes. -/
def envC2 : GatewayEnv :=
  { translateResp := fun _ _ => Except.ok "\"hello \"",
    transcribeResp := Except.ok "",
    summarizeResp := fun _ => Except.ok "" }

/-- C2 (counterexample): the code strips whitespace before quotes, so a
payload `"hello "` (trailing space inside the quotes) yields `hello `
which ends with whitespace — the claimed property fails. -/
theorem C2_counterexample :
    noQuoteOrSpaceAtEnds (perform_translation envC2 "Take two tablets" "Spanish") = false := by
  decide

/-- C2 (amended): on provider success the returned text is the payload
with surrounding whitespace stripped and then surrounding double quotes
stripped; it never starts or ends with a double-quote character, though
it may start or end with whitespace that was enclosed in the quotes. -/
theorem C2_translate_strips_quotes (env : GatewayEnv) (text target_lang content : String)
    (h : env.translateResp text target_lang = Except.ok content) :
    perform_translation env text target_lang = stripQuotes (pyStrip content) ∧
    (∀ c, (perform_translation env text target_lang).data.head? = some c → c ≠ '"') ∧
    (∀ c, (perform_translation env text target_lang).data.getLast? = some c → c ≠ '"') := by
  have he : perform_translation env text target_lang = stripQuotes (pyStrip content) := by
    rw [perform_translation, h]
  refine ⟨he, ?_, ?_⟩
  · intro c hc
    rw [he] at hc
    have hq := head?_trimBoth (fun c => c = '"') (pyStrip content).data c hc
    simpa using hq
  · intro c hc
    rw [he] at hc
    have hq := getLast?_trimBoth (fun c => c = '"') (pyStrip content).data c hc
    simpa using hq

/-- Witness for `C2_translate_strips_quotes` at a concrete provider. -/
theorem C2_translate_strips_quotes_witness :
    envC2.translateResp "x" "Spanish" = Except.ok "\"hello \"" ∧
    perform_translation envC2 "x" "Spanish" = stripQuotes (pyStrip "\"hello \"") :=
  ⟨rfl, (C2_translate_strips_quotes envC2 "x" "Spanish" "\"hello \"" rfl).1⟩

/-- C3: on the empty store `generate_summary` returns exactly
"No conversation logs found." and passes nothing to the summarization
call, whatever the provider would answer. -/
theorem C3_empty_store_summary (env : GatewayEnv) :
    generate_summary [] env = "No conversation logs found." ∧
    summarizeInput [] = none :=
  ⟨rfl, rfl⟩

/-- A provider that fails every call. -/
def envErr : GatewayEnv :=
  { translateResp := fun _ _ => Except.error "boom",
    transcribeResp := Except.error "mic",
    summarizeResp := fun _ => Except.error "sum" }

/-- C4: on a provider failure the translate operation returns the
inline marker `[Translation Error] <details>` (no exception escapes the
model), and `chat_text` still appends the message to the store. -/
theorem C4_translation_error_persisted (st : Store) (role text target_lang : String)
    (env : GatewayEnv) (ts : Nat) (e : String)
    (h : env.translateResp text target_lang = Except.error e) :
    (chat_text st role text target_lang env ts).2.translated_text =
      "[Translation Error] " ++ e ∧
    (chat_text st role text target_lang env ts).1 =
      st ++ [(chat_text st role text target_lang env ts).2] := by
  constructor
  · simp [chat_text, insertMessage, perform_translation, h]
  · rfl

/-- Witness for `C4_translation_error_persisted` at a failing provider. -/
theorem C4_translation_error_persisted_witness :
    envErr.translateResp "hi" "Spanish" = Except.error "boom" ∧
    (chat_text [] "doctor" "hi" "Spanish" envErr 5).2.translated_text =
      "[Translation Error] " ++ "boom" :=
  ⟨rfl, (C4_translation_error_persisted [] "doctor" "hi" "Spanish" envErr 5 "boom" rfl).1⟩

/-- C5: a text submission stores and returns a message with
`original_lang = "Auto"`, no audio URL, the submitted text verbatim as
`original_text`, and `translated_text = translate(text, target_lang)`. -/
theorem C5_chat_text_message (st : Store) (role text target_lang : String)
    (env : GatewayEnv) (ts : Nat) :
    (chat_text st role text target_lang env ts).2.original_lang = "Auto" ∧
    (chat_text st role text target_lang env ts).2.original_audio_url = none ∧
    (chat_text st role text target_lang env ts).2.original_text = text ∧
    (chat_text st role text target_lang env ts).2.translated_text =
      perform_translation env text target_lang ∧
    (chat_text st role text target_lang env ts).1 =
      st ++ [(chat_text st role text target_lang env ts).2] :=
  ⟨rfl, rfl, rfl, rfl, rfl⟩

/-- C6: an audio submission stores and returns a message with
`original_lang = "Audio-Auto"` and a non-empty `original_audio_url`
referencing the stored blob. -/
theorem C6_chat_audio_message (st : Store) (role target_lang fn uuid : String)
    (env : GatewayEnv) (ts : Nat) :
    (chat_audio st role target_lang fn uuid env ts).2.original_lang = "Audio-Auto" ∧
    (chat_audio st role target_lang fn uuid env ts).2.original_audio_url =
      some (audioUrl uuid fn) ∧
    audioUrl uuid fn ≠ "" := by
  refine ⟨rfl, rfl, ?_⟩
  intro h
  have h2 := congrArg String.length h
  rw [audioUrl, String.length_append] at h2
  have h14 : ("/static/audio/" : String).length = 14 := rfl
  have h0 : ("" : String).length = 0 := rfl
  rw [h14, h0] at h2
  omega

/-- C7: when transcription fails, the marker
`[Transcription Error: <details>]` is the `original_text`, it is the
exact input handed to translate, and the message is still persisted. -/
theorem C7_transcription_error_flows (st : Store) (role target_lang fn uuid : String)
    (env : GatewayEnv) (ts : Nat) (e : String)
    (h : env.transcribeResp = Except.error e) :
    transcribe env.transcribeResp = "[Transcription Error: " ++ e ++ "]" ∧
    (chat_audio st role target_lang fn uuid env ts).2.original_text =
      "[Transcription Error: " ++ e ++ "]" ∧
    (chat_audio st role target_lang fn uuid env ts).2.translated_text =
      perform_translation env ("[Transcription Error: " ++ e ++ "]") target_lang ∧
    (chat_audio st role target_lang fn uuid env ts).1 =
      st ++ [(chat_audio st role target_lang fn uuid env ts).2] := by
  have ht : transcribe env.transcribeResp = "[Transcription Error: " ++ e ++ "]" := by
    simp only [h, transcribe]
  refine ⟨ht, ?_, ?_, rfl⟩
  · show transcribe env.transcribeResp = _
    exact ht
  · show perform_translation env (transcribe env.transcribeResp) target_lang = _
    rw [ht]

/-- Witness for `C7_transcription_error_flows` at a failing provider. -/
theorem C7_transcription_error_flows_witness :
    envErr.transcribeResp = Except.error "mic" ∧
    (chat_audio [] "patient" "English" "a.wav" "u1" envErr 3).2.original_text =
      "[Transcription Error: " ++ "mic" ++ "]" :=
  ⟨rfl, (C7_transcription_error_flows [] "patient" "English" "a.wav" "u1" envErr 3 "mic" rfl).2.1⟩

/-! ### History ordering (C8) -/

theorem mergeSort_pair {α : Type} (le : α → α → Bool) (a b : α) :
    List.mergeSort [a, b] le = if le a b then [a, b] else [b, a] := by
  rw [List.mergeSort]
  simp [List.splitInTwo, List.splitAt, List.splitAt.go, List.merge]

/-- C8: `get_history` returns a permutation of the stored messages (all
of them, nothing else), sorted in non-decreasing timestamp order, and
the empty store yields the empty sequence. -/
theorem C8_get_history_sorted (st : Store) :
    (get_history st).Perm st ∧
    List.Pairwise (fun a b : ChatMessage => a.timestamp ≤ b.timestamp)
      (get_history st) ∧
    get_history [] = [] := by
  have hp : (List.mergeSort st
      (fun a b : ChatMessage => Nat.ble a.timestamp b.timestamp)).Pairwise
      (fun a b : ChatMessage => Nat.ble a.timestamp b.timestamp) := by
    apply List.sorted_mergeSort
    · intro a b c hab hbc
      simp only [Nat.ble_eq] at *
      omega
    · intro a b
      simp only [Bool.or_eq_true, Nat.ble_eq]
      omega
  refine ⟨List.mergeSort_perm st _, hp.imp ?_, by simp [get_history]⟩
  intro a b h
  simpa [Nat.ble_eq] using h

/-! ### Audio-URL provenance invariant (C9) -/

theorem applyOp_map_isSome (st : Store) (op : Op) :
    (applyOp st op).map (fun m => m.original_audio_url.isSome) =
      st.map (fun m => m.original_audio_url.isSome) ++ [op.isAudio] := by
  cases op with
  | text role txt tl env ts => simp [applyOp, chat_text, insertMessage, Op.isAudio]
  | audio role tl fn uuid env ts => simp [applyOp, chat_audio, insertMessage, Op.isAudio]

theorem runFrom_map_isSome (ops : List Op) :
    ∀ st : Store, (runFrom st ops).map (fun m => m.original_audio_url.isSome) =
      st.map (fun m => m.original_audio_url.isSome) ++ ops.map Op.isAudio := by
  induction ops with
  | nil => intro st; simp [runFrom]
  | cons op ops ih =>
    intro st
    have h1 : runFrom st (op :: ops) = runFrom (applyOp st op) ops := rfl
    rw [h1, ih (applyOp st op), applyOp_map_isSome]
    simp

/-- C9: in every state reachable by the system's only operations (the
two ingestion inserts; no update or delete exists), the i-th persisted
message has `original_audio_url` set exactly when the i-th operation
was an audio upload. -/
theorem C9_audio_url_tracks_origin (ops : List Op) :
    (runOps ops).map (fun m => m.original_audio_url.isSome) = ops.map Op.isAudio := by
  have h := runFrom_map_isSome ops []
  simpa [runOps] using h

/-! ### Blob filename and extension (C10) -/

theorem splitOnChar_ne_nil (sep : Char) (l : List Char) : splitOnChar sep l ≠ [] := by
  cases l with
  | nil => simp [splitOnChar]
  | cons c rest =>
    cases h : splitOnChar sep rest with
    | nil => simp [splitOnChar, h]
    | cons x xs =>
      simp only [splitOnChar, h]
      by_cases hc : c = sep <;> simp [hc]

theorem splitOnChar_of_no_sep (sep : Char) (l : List Char)
    (h : ∀ c ∈ l, c ≠ sep) : splitOnChar sep l = [l] := by
  induction l with
  | nil => rfl
  | cons a l ih =>
    have ha : a ≠ sep := h a (List.mem_cons_self a l)
    have hrec : splitOnChar sep l = [l] := ih fun c hc => h c (List.mem_cons_of_mem a hc)
    simp only [splitOnChar, hrec]
    rw [if_neg ha]

theorem two_le_length_splitOnChar (sep : Char) (l : List Char)
    (h : sep ∈ l) : 2 ≤ (splitOnChar sep l).length := by
  induction l with
  | nil => cases h
  | cons a l ih =>
    cases hs : splitOnChar sep l with
    | nil => exact absurd hs (splitOnChar_ne_nil sep l)
    | cons x xs =>
      by_cases hc : a = sep
      · simp only [splitOnChar, hs]
        rw [if_pos hc]
        simp
      · have hmem : sep ∈ l := by
          cases List.mem_cons.mp h with
          | inl he => exact absurd he.symm hc
          | inr hm => exact hm
        have h2 := ih hmem
        rw [hs] at h2
        simp only [splitOnChar, hs]
        rw [if_neg hc]
        simpa using h2

theorem getLastD_splitOnChar_append (sep : Char) (b : List Char)
    (hb : ∀ c ∈ b, c ≠ sep) :
    ∀ a : List Char, (splitOnChar sep (a ++ sep :: b)).getLastD [] = b := by
  intro a
  induction a with
  | nil =>
    have hsp : splitOnChar sep b = [b] := splitOnChar_of_no_sep sep b hb
    simp only [List.nil_append, splitOnChar, hsp]
    rw [if_pos trivial]
    rw [List.getLastD_cons, List.getLastD_cons, List.getLastD_nil]
  | cons x a ih =>
    cases hs : splitOnChar sep (a ++ sep :: b) with
    | nil => exact absurd hs (splitOnChar_ne_nil _ _)
    | cons h t =>
      have hlen := two_le_length_splitOnChar sep (a ++ sep :: b) (by simp)
      rw [hs] at hlen
      have htne : t ≠ [] := by
        intro hteq
        rw [hteq] at hlen
        simp at hlen
      rw [hs] at ih
      obtain ⟨y, hy⟩ : ∃ y, t.getLast? = some y := by
        cases t with
        | nil => exact absurd rfl htne
        | cons z zs => exact ⟨_, List.getLast?_eq_getLast (z :: zs) (by simp)⟩
      rw [List.getLastD_cons, List.getLastD_eq_getLast?, hy, Option.getD_some] at ih
      by_cases hc : x = sep
      · simp only [List.cons_append, splitOnChar, List.append_eq, hs]
        rw [if_pos hc]
        rw [List.getLastD_cons, List.getLastD_cons, List.getLastD_eq_getLast?, hy,
          Option.getD_some]
        exact ih
      · simp only [List.cons_append, splitOnChar, List.append_eq, hs]
        rw [if_neg hc]
        rw [List.getLastD_cons, List.getLastD_eq_getLast?, hy, Option.getD_some]
        exact ih

theorem fileExtension_no_dot (fn : String) (h : ∀ c ∈ fn.data, c ≠ '.') :
    fileExtension fn = fn := by
  show String.mk ((splitOnChar '.' fn.data).getLastD []) = fn
  rw [splitOnChar_of_no_sep '.' fn.data h, List.getLastD_cons, List.getLastD_nil]

/-- C10: the blob filename is `audio_<uuid>.<ext>` where `<ext>` is the
chunk of the uploaded filename after its last dot (the whole filename
when it has no dot), and the audio URL starts with
`/static/audio/audio_`. -/
theorem C10_blob_filename (uuid fn : String) :
    (∃ rest, audioUrl uuid fn = "/static/audio/audio_" ++ rest) ∧
    blobFilename uuid fn = "audio_" ++ uuid ++ "." ++ fileExtension fn ∧
    ((∀ c ∈ fn.data, c ≠ '.') → fileExtension fn = fn) ∧
    (∀ a b : List Char, fn.data = a ++ '.' :: b → (∀ c ∈ b, c ≠ '.') →
      fileExtension fn = ⟨b⟩) := by
  have hlit : ("/static/audio/".data ++ "audio_".data) = "/static/audio/audio_".data := by
    decide
  refine ⟨⟨uuid ++ "." ++ fileExtension fn, ?_⟩, rfl, fileExtension_no_dot fn, ?_⟩
  · apply String.ext
    simp only [audioUrl, blobFilename, String.data_append, List.append_assoc]
    rw [← List.append_assoc, hlit]
  · intro a b hab hbsep
    show String.mk ((splitOnChar '.' fn.data).getLastD []) = ⟨b⟩
    rw [hab, getLastD_splitOnChar_append '.' b hbsep a]

/-- Witness for `C10_blob_filename` at concrete filenames. -/
theorem C10_blob_filename_witness :
    fileExtension "recording" = "recording" ∧ fileExtension "clip.audio.wav" = "wav" :=
  ⟨(C10_blob_filename "u" "recording").2.2.1 (by decide),
   (C10_blob_filename "u" "clip.audio.wav").2.2.2 "clip.audio".data "wav".data
     (by decide) (by decide)⟩

/-! ### Summary transcript order (C1) -/

/-- A provider stub echoing the input text as its translation. -/
def envStub : GatewayEnv :=
  { translateResp := fun t _ => Except.ok t,
    transcribeResp := Except.ok "",
    summarizeResp := fun _ => Except.ok "ok" }

/-- First message of the C1 store: inserted first, later timestamp. -/
def msgC1a : ChatMessage :=
  { id := 1, role := "doctor", original_text := "one", translated_text := "one",
    original_lang := "Auto", target_lang := "Spanish",
    original_audio_url := none, timestamp := 2 }

/-- Second message of the C1 store: inserted second, earlier timestamp. -/
def msgC1b : ChatMessage :=
  { id := 2, role := "patient", original_text := "two", translated_text := "two",
    original_lang := "Auto", target_lang := "Spanish",
    original_audio_url := none, timestamp := 1 }

/-- A store whose insertion order disagrees with timestamp order. -/
def stC1 : Store := [msgC1a, msgC1b]

theorem stC1_reachable :
    runOps [Op.text "doctor" "one" "Spanish" envStub 2,
            Op.text "patient" "two" "Spanish" envStub 1] = stC1 := by
  decide

/-- C1 (counterexample): `generate_summary` iterates the rows of an
unordered query, so on a reachable store whose insertion order differs
from timestamp order the transcript passed to the summarizer is not
the ascending-timestamp transcript the claim describes. -/
theorem C1_counterexample :
    summarizeInput stC1 ≠ some (transcript (get_history stC1)) := by
  have hc : ¬ (Nat.ble msgC1a.timestamp msgC1b.timestamp = true) := by decide
  have h : get_history stC1 = [msgC1b, msgC1a] := by
    show List.mergeSort [msgC1a, msgC1b] _ = _
    rw [mergeSort_pair, if_neg hc]
  rw [h]
  decide

/-- C1 (amended): on a non-empty store `generate_summary` builds the
transcript line by line over the stored messages in insertion (store)
order and passes exactly that transcript to the summarization call;
whenever the stored timestamps are non-decreasing in insertion order
this coincides with ascending timestamp order. -/
theorem C1_transcript_store_order (st : Store) (env : GatewayEnv) (hne : st ≠ []) :
    summarizeInput st = some (transcript st) ∧
    transcript st = String.join (st.map transcriptLine) ∧
    generate_summary st env = summarize env (transcript st) ∧
    (List.Pairwise (fun a b : ChatMessage => a.timestamp ≤ b.timestamp) st →
      transcript st = transcript (get_history st)) := by
  have hE : List.isEmpty st = false := by
    cases st with
    | nil => exact absurd rfl hne
    | cons a l => rfl
  refine ⟨?_, ?_, ?_, ?_⟩
  · simp [summarizeInput, hE]
  · simp [transcript, String.join, List.foldl_map]
  · simp [generate_summary, hE]
  · intro hmono
    have hs : List.Pairwise
        (fun a b : ChatMessage => Nat.ble a.timestamp b.timestamp) st :=
      hmono.imp fun h => by simpa [Nat.ble_eq] using h
    show transcript st = transcript (List.mergeSort st _)
    rw [List.mergeSort_of_sorted hs]

/-- Witness for `C1_transcript_store_order` at a concrete store. -/
theorem C1_transcript_store_order_witness :
    ([msgC1a] : Store) ≠ [] ∧ summarizeInput [msgC1a] = some (transcript [msgC1a]) :=
  ⟨by simp, (C1_transcript_store_order [msgC1a] envStub (by simp)).1⟩

end NeoTranslate
